import Mathlib

/-!
Shallow embedding of the article-validation core of the QA-Wolf repository
(`utils/ArticleValidator.ts` and `pages/HackerNewsPage` `validateSorting`),
together with theorems settling the spec claims about it.

JavaScript numbers that matter here (timestamps, scores) are modelled by
`JsNum` (finite integer milliseconds, `NaN`, `+Infinity`, `-Infinity`);
host behaviour the code calls into (`new Date(s).getTime()`,
`Date(t).toISOString()`) is a `JsHost` parameter, and DOM reads on an
article element are pre-resolved into an `ArticleHandle` record (a `none`
field stands for an absent element / `null` attribute or text).
-/

set_option autoImplicit false

namespace QAWolf

/-- A JavaScript `number` as used by the validator: finite (integer ms),
`NaN`, `+Infinity` or `-Infinity`. -/
inductive JsNum where
  | nan : JsNum
  | inf : JsNum
  | ninf : JsNum
  | fin : Int → JsNum
  deriving DecidableEq, Repr

namespace JsNum

/-- JavaScript `a > b`: false whenever either side is `NaN`. -/
def jsGt : JsNum → JsNum → Bool
  | nan, _ => false
  | _, nan => false
  | inf, inf => false
  | inf, _ => true
  | _, inf => false
  | ninf, _ => false
  | fin _, ninf => true
  | fin a, fin b => a > b

/-- JavaScript subtraction `a - b` on our number model. -/
def jsSub : JsNum → JsNum → JsNum
  | nan, _ => nan
  | _, nan => nan
  | inf, inf => nan
  | ninf, ninf => nan
  | inf, _ => inf
  | ninf, _ => ninf
  | fin _, inf => ninf
  | fin _, ninf => inf
  | fin a, fin b => fin (a - b)

/-- JavaScript `isNaN`. -/
def isNaN : JsNum → Bool
  | nan => true
  | _ => false

end JsNum

/-- Host (browser/JS runtime) functions the validator calls:
`parseDate s` models `new Date(s).getTime()` (`none` when the string does
not parse, i.e. the JS result is `NaN`), `toISO t` models
`new Date(t).toISOString()` on a finite time. -/
structure JsHost where
  parseDate : String → Option Int
  toISO : Int → String

/-- The `.age` sub-element of an article row: its `title` attribute
(`none` models `getAttribute` returning `null`). -/
structure AgeElement where
  title : Option String
  deriving DecidableEq, Repr

/-- An article row (`ElementHandle`) with its DOM reads pre-resolved:
`age` is the `.age` sub-element if present; `titleText`/`titleHref` are the
`.titlelink` text and href; `authorText` is the `.hnuser` text; `scoreText`
is the `.score` text. `none` models an absent element or a `null`
text/attribute. -/
structure ArticleHandle where
  age : Option AgeElement
  titleText : Option String
  titleHref : Option String
  authorText : Option String
  scoreText : Option String
  deriving DecidableEq, Repr

/-- `ArticleValidator.getArticleTimestamp`: find the `.age` element (absence
throws, caught locally into `null`); read its `title` attribute; if that is
`null` or `""` (falsy) return `null`, else `new Date(ageText).getTime()` —
a finite time when the string parses, `NaN` when it does not.
`none` is JS `null`; `some v` a returned number (possibly `NaN`). -/
def getArticleTimestamp (h : JsHost) (article : ArticleHandle) : Option JsNum :=
  match article.age with
  | none => none
  | some ageElement =>
    match ageElement.title with
    | none => none
    | some ageText =>
      if ageText = "" then none
      else
        match h.parseDate ageText with
        | some t => some (JsNum.fin t)
        | none => some JsNum.nan

/-- Result record of `validateSorting`. -/
structure SortingResult where
  isValid : Bool
  errorIndex : Option Nat
  message : String
  deriving DecidableEq, Repr

/-- The error message built at a sorting violation
(`new Date(timestamp).toISOString()` of the two finite times involved). -/
def sortingErrorMessage (h : JsHost) (i : Nat) (t prev : JsNum) : String :=
  let iso : JsNum → String := fun v =>
    match v with
    | JsNum.fin x => h.toISO x
    | _ => ""
  s!"Sorting error at index {i}: {iso t} is newer than {iso prev}"

/-- The loop of `validateSorting`: scan the extracted timestamps left to
right from index `i`, keeping `prev` (`prevTimestamp`). A non-`null`
timestamp strictly greater than `prev` stops the scan with a violation;
a non-`null` timestamp becomes the new `prev`; `null` is skipped. -/
def sortScan (h : JsHost) (prev : JsNum) (i : Nat) :
    List (Option JsNum) → SortingResult
  | [] => ⟨true, none, "All articles are correctly sorted"⟩
  | ts :: rest =>
    match ts with
    | some t =>
      if JsNum.jsGt t prev then
        ⟨false, some i, sortingErrorMessage h i t prev⟩
      else
        sortScan h t (i + 1) rest
    | none => sortScan h prev (i + 1) rest

/-- `ArticleValidator.validateSorting`: throw (`Except.error`) on an empty
array; return a count-mismatch result when the length is not 100; otherwise
scan the timestamps starting from `prevTimestamp = Infinity`. -/
def validateSorting (h : JsHost) (articles : List ArticleHandle) :
    Except String SortingResult :=
  if articles.length = 0 then
    Except.error "Invalid input: articles must be a non-empty array"
  else if articles.length ≠ 100 then
    Except.ok ⟨false, none,
      s!"Expected 100 articles, but found {articles.length}"⟩
  else
    Except.ok (sortScan h JsNum.inf 0 (articles.map (getArticleTimestamp h)))

/-- JS string truthiness fallback `x || d` for an optional string read:
an absent element / `null` text and the empty string both fall back. -/
def jsOrElse (x : Option String) (d : String) : String :=
  match x with
  | none => d
  | some s => if s = "" then d else s

/-- `parseInt(s, 10)`: skip leading whitespace, read an optional sign and
then leading decimal digits; `NaN` when there is no digit. -/
def parseIntJs (s : String) : JsNum :=
  let cs := s.toList.dropWhile (fun c => c = ' ' ∨ c = '\t' ∨ c = '\n' ∨ c = '\r')
  let signed : Bool × List Char :=
    match cs with
    | '-' :: rest => (true, rest)
    | '+' :: rest => (false, rest)
    | _ => (false, cs)
  let ds := signed.2.takeWhile Char.isDigit
  if ds.isEmpty then JsNum.nan
  else
    let n : Nat := ds.foldl (fun acc c => acc * 10 + (c.toNat - 48)) 0
    JsNum.fin (if signed.1 then -(n : Int) else (n : Int))

/-- The `ArticleDetails` record. -/
structure ArticleDetails where
  title : String
  url : String
  author : String
  score : JsNum
  deriving DecidableEq, Repr

/-- `ArticleValidator.extractArticleDetails`: each text read falls back to
`""` (`el?.textContent || ''`), the score text falls back to `"0"` and goes
through `parseInt(_, 10)`. -/
def extractArticleDetails (article : ArticleHandle) : ArticleDetails :=
  { title := jsOrElse article.titleText ""
    url := jsOrElse article.titleHref ""
    author := jsOrElse article.authorText ""
    score := parseIntJs (jsOrElse article.scoreText "0") }

/-- `ArticleValidator.isValidArticleContent`:
`Boolean(title && url && author && !isNaN(score))`. -/
def isValidArticleContent (details : ArticleDetails) : Bool :=
  details.title != "" && details.url != "" && details.author != "" &&
    !details.score.isNaN

/-- Result record of `validateArticleContent`. -/
structure ContentValidationResult where
  isValid : Bool
  details : ArticleDetails
  deriving DecidableEq, Repr

/-- `ArticleValidator.validateArticleContent`. -/
def validateArticleContent (article : ArticleHandle) : ContentValidationResult :=
  let details := extractArticleDetails article
  ⟨isValidArticleContent details, details⟩

/-- One entry of `inaccurateArticles`: the index and the timestamp number
recorded for a stale article. -/
structure InaccurateArticle where
  index : Nat
  timestamp : JsNum
  deriving DecidableEq, Repr

/-- Result record of `validateTimestampAccuracy`. -/
structure TimestampAccuracyResult where
  isAccurate : Bool
  inaccurateArticles : List InaccurateArticle
  deriving DecidableEq, Repr

/-- Loop of `validateTimestampAccuracy`: from index `i`, flag an article
when its timestamp is not `null` and `now - timestamp > threshold`
(a `NaN` timestamp never passes the `>`). -/
def accuracyScan (h : JsHost) (now threshold : Int) (i : Nat) :
    List ArticleHandle → List InaccurateArticle
  | [] => []
  | a :: rest =>
    match getArticleTimestamp h a with
    | some t =>
      if JsNum.jsGt (JsNum.jsSub (JsNum.fin now) t) (JsNum.fin threshold) then
        ⟨i, t⟩ :: accuracyScan h now threshold (i + 1) rest
      else accuracyScan h now threshold (i + 1) rest
    | none => accuracyScan h now threshold (i + 1) rest

/-- `ArticleValidator.validateTimestampAccuracy`, with `Date.now()` passed
in as `now` (sampled once, before the loop) and the configured
`timeThreshold` in milliseconds. -/
def validateTimestampAccuracy (h : JsHost) (now threshold : Int)
    (articles : List ArticleHandle) : TimestampAccuracyResult :=
  let inaccurate := accuracyScan h now threshold 0 articles
  ⟨inaccurate.length == 0, inaccurate⟩

/-- The constructor's conversion `timeThresholdMinutes * 60 * 1000`;
the default is 5 minutes. -/
def timeThresholdOfMinutes (minutes : Int) : Int :=
  minutes * 60 * 1000

/-- One entry of `duplicates`: index and title of a repeated article. -/
structure DuplicateArticle where
  index : Nat
  title : String
  deriving DecidableEq, Repr

/-- Result record of `validateUniqueness`. -/
structure UniquenessResult where
  isUnique : Bool
  duplicates : List DuplicateArticle
  deriving DecidableEq, Repr

/-- The title read `validateUniqueness` does per article:
`el?.textContent || ''` on the `.titlelink` element. -/
def articleTitle (article : ArticleHandle) : String :=
  jsOrElse article.titleText ""

/-- Loop of `validateUniqueness`: `seen` is the `Set` of titles met so far;
a title already seen is recorded as a duplicate (and not re-added),
otherwise it is added to `seen`. -/
def uniquenessScan (seen : List String) (i : Nat) :
    List String → List DuplicateArticle
  | [] => []
  | t :: rest =>
    if t ∈ seen then ⟨i, t⟩ :: uniquenessScan seen (i + 1) rest
    else uniquenessScan (t :: seen) (i + 1) rest

/-- `ArticleValidator.validateUniqueness`. -/
def validateUniqueness (articles : List ArticleHandle) : UniquenessResult :=
  let duplicates := uniquenessScan [] 0 (articles.map articleTitle)
  ⟨duplicates.length == 0, duplicates⟩

/-- Result record of `performFullValidation`. -/
structure FullValidationResult where
  sorting : SortingResult
  content : List ContentValidationResult
  timestampAccuracy : TimestampAccuracyResult
  uniqueness : UniquenessResult
  isFullyValid : Bool
  deriving DecidableEq, Repr

/-- `ArticleValidator.performFullValidation`: run the four validators on the
same collection (a rejection of `validateSorting` rejects the whole call via
`Promise.all`) and fold their verdicts into `isFullyValid`. -/
def performFullValidation (h : JsHost) (now threshold : Int)
    (articles : List ArticleHandle) : Except String FullValidationResult :=
  match validateSorting h articles with
  | Except.error e => Except.error e
  | Except.ok sorting =>
    let content := articles.map validateArticleContent
    let timestampAccuracy := validateTimestampAccuracy h now threshold articles
    let uniqueness := validateUniqueness articles
    Except.ok
      { sorting := sorting
        content := content
        timestampAccuracy := timestampAccuracy
        uniqueness := uniqueness
        isFullyValid := sorting.isValid && content.all (fun r => r.isValid) &&
          timestampAccuracy.isAccurate && uniqueness.isUnique }

/-- `ArticleData` of `HackerNewsPage`. -/
structure ArticleData where
  title : String
  timestamp : JsNum
  deriving DecidableEq, Repr

/-- JavaScript `a <= b`: false whenever either side is `NaN`. -/
def JsNum.jsLe : JsNum → JsNum → Bool
  | JsNum.nan, _ => false
  | _, JsNum.nan => false
  | JsNum.inf, JsNum.inf => true
  | JsNum.inf, _ => false
  | _, JsNum.inf => true
  | JsNum.ninf, _ => true
  | JsNum.fin _, JsNum.ninf => false
  | JsNum.fin a, JsNum.fin b => a ≤ b

/-- `HackerNewsPage.validateSorting`:
`articles.every((article, index) => index === 0 ||
article.timestamp <= articles[index - 1].timestamp)`. -/
def hnValidateSorting (articles : List ArticleData) : Bool :=
  articles.enum.all fun p =>
    p.1 == 0 ||
      JsNum.jsLe p.2.timestamp
        ((articles.getD (p.1 - 1) ⟨"", JsNum.nan⟩).timestamp)

/-! ### Concrete fixtures used by witnesses and counterexamples -/

/-- A host whose date parser accepts every string as the instant `0`. -/
def hostZero : JsHost :=
  ⟨fun _ => some 0, fun _ => ""⟩

/-- A host whose date parser rejects every string (`new Date(s)` invalid). -/
def hostNone : JsHost :=
  ⟨fun _ => none, fun _ => ""⟩

/-- An article row with no recognisable sub-elements at all. -/
def blankArticle : ArticleHandle :=
  ⟨none, none, none, none, none⟩

/-- An article row whose `.age` element carries the attribute `"x"`. -/
def agedArticle : ArticleHandle :=
  ⟨some ⟨some "x"⟩, none, none, none, none⟩

/-- An article row whose `.titlelink` text is the given string. -/
def titledArticle (t : String) : ArticleHandle :=
  ⟨none, some t, none, none, none⟩

/-! ### Helper lemmas about the sorting scan -/

lemma sortScan_isValid_idx (h : JsHost) :
    ∀ (ts : List (Option JsNum)) (prev : JsNum) (i j : Nat),
      (sortScan h prev i ts).isValid = (sortScan h prev j ts).isValid := by
  intro ts
  induction ts with
  | nil => intro prev i j; rfl
  | cons head rest ih =>
    intro prev i j
    cases head with
    | none => simpa [sortScan] using ih prev (i + 1) (j + 1)
    | some t =>
      cases hgt : JsNum.jsGt t prev with
      | true => simp [sortScan, hgt]
      | false => simpa [sortScan, hgt] using ih t (i + 1) (j + 1)

lemma jsGt_fin_fin (a b : Int) : JsNum.jsGt (JsNum.fin a) (JsNum.fin b) = decide (a > b) := rfl

lemma sortScan_fin_chain (h : JsHost) :
    ∀ (vs : List Int) (p : Int) (i : Nat),
      ((sortScan h (JsNum.fin p) i
        (vs.map (fun t => some (JsNum.fin t)))).isValid = true ↔
        List.Chain (fun a b => b ≤ a) p vs) := by
  intro vs
  induction vs with
  | nil => intro p i; simp [sortScan]
  | cons v rest ih =>
    intro p i
    by_cases hv : v ≤ p
    · have hgt : JsNum.jsGt (JsNum.fin v) (JsNum.fin p) = false := by
        rw [jsGt_fin_fin, decide_eq_false] ; omega
      simp only [List.map_cons, sortScan, hgt, Bool.false_eq_true, if_false,
        List.chain_cons]
      rw [ih v (i + 1)]
      simp [hv]
    · have hgt : JsNum.jsGt (JsNum.fin v) (JsNum.fin p) = true := by
        rw [jsGt_fin_fin, decide_eq_true_eq] ; omega
      simp only [List.map_cons, sortScan, hgt, if_true, List.chain_cons]
      simp [hv]

lemma sortScan_inf_chain (h : JsHost) (vs : List Int) (i : Nat) :
    ((sortScan h JsNum.inf i
      (vs.map (fun t => some (JsNum.fin t)))).isValid = true ↔
      List.Chain' (fun a b => b ≤ a) vs) := by
  cases vs with
  | nil => simp [sortScan, List.Chain']
  | cons v rest =>
    have hgt : JsNum.jsGt (JsNum.fin v) JsNum.inf = false := rfl
    have hc : (List.Chain' (fun a b => b ≤ a) (v :: rest) ↔
        List.Chain (fun a b => b ≤ a) v rest) := Iff.rfl
    rw [hc]
    simp only [List.map_cons, sortScan, hgt, Bool.false_eq_true, if_false]
    exact sortScan_fin_chain h rest v (i + 1)

lemma chain'_iff_pairwise_le (vs : List Int) :
    (List.Chain' (fun a b => b ≤ a) vs ↔
      ∀ (i : Nat) (hi : i + 1 < vs.length),
        vs.get ⟨i + 1, hi⟩ ≤ vs.get ⟨i, Nat.lt_of_succ_lt hi⟩) := by
  rw [List.chain'_iff_get]
  constructor
  · intro hp i hi
    exact hp i (by omega)
  · intro hp i hi
    exact hp i (by omega)

lemma sortScan_skip_none (h : JsHost) :
    ∀ (l1 l2 : List (Option JsNum)) (prev : JsNum) (i j : Nat),
      (sortScan h prev i (l1 ++ none :: l2)).isValid =
        (sortScan h prev j (l1 ++ l2)).isValid := by
  intro l1
  induction l1 with
  | nil =>
    intro l2 prev i j
    simpa [sortScan] using sortScan_isValid_idx h l2 prev (i + 1) j
  | cons head rest ih =>
    intro l2 prev i j
    cases head with
    | none => simpa [sortScan] using ih l2 prev (i + 1) (j + 1)
    | some t =>
      cases hgt : JsNum.jsGt t prev with
      | true => simp [sortScan, hgt]
      | false => simpa [sortScan, hgt] using ih l2 t (i + 1) (j + 1)

lemma validateSorting_eq_scan (h : JsHost) (articles : List ArticleHandle)
    (hlen : articles.length = 100) :
    validateSorting h articles =
      Except.ok (sortScan h JsNum.inf 0 (articles.map (getArticleTimestamp h))) := by
  simp [validateSorting, hlen]

lemma validateSorting_mismatch (h : JsHost) (articles : List ArticleHandle)
    (h0 : articles.length ≠ 0) (h100 : articles.length ≠ 100) :
    validateSorting h articles = Except.ok
      ⟨false, none, s!"Expected 100 articles, but found {articles.length}"⟩ := by
  unfold validateSorting
  rw [if_neg h0, if_pos h100]

lemma validateSorting_ok_of_ne (h : JsHost) (articles : List ArticleHandle)
    (hne : articles ≠ []) :
    ∃ r, validateSorting h articles = Except.ok r := by
  have h0 : ¬ articles.length = 0 := by simpa [List.length_eq_zero] using hne
  by_cases h100 : articles.length = 100
  · exact ⟨_, validateSorting_eq_scan h articles h100⟩
  · exact ⟨_, validateSorting_mismatch h articles h0 h100⟩

lemma validateSorting_allKnown (h : JsHost) (articles : List ArticleHandle)
    (vs : List Int) (hlen : articles.length = 100)
    (hts : articles.map (getArticleTimestamp h) =
      vs.map (fun t => some (JsNum.fin t))) :
    ∃ r, validateSorting h articles = Except.ok r ∧
      (r.isValid = true ↔ ∀ (i : Nat) (hi : i + 1 < vs.length),
        vs.get ⟨i + 1, hi⟩ ≤ vs.get ⟨i, Nat.lt_of_succ_lt hi⟩) := by
  refine ⟨sortScan h JsNum.inf 0 (articles.map (getArticleTimestamp h)),
    validateSorting_eq_scan h articles hlen, ?_⟩
  rw [hts, sortScan_inf_chain, chain'_iff_pairwise_le]

/-! ### Helper lemmas about the freshness and uniqueness scans -/

lemma accuracyScan_mem (h : JsHost) (now threshold : Int) (k : Nat) (t : JsNum) :
    ∀ (articles : List ArticleHandle) (i0 : Nat),
      ((⟨k, t⟩ : InaccurateArticle) ∈ accuracyScan h now threshold i0 articles ↔
        ∃ d a, articles[d]? = some a ∧ k = i0 + d ∧
          getArticleTimestamp h a = some t ∧
          JsNum.jsGt (JsNum.jsSub (JsNum.fin now) t) (JsNum.fin threshold) = true) := by
  intro articles
  induction articles with
  | nil => intro i0; simp [accuracyScan]
  | cons a0 rest ih =>
    intro i0
    cases hts : getArticleTimestamp h a0 with
    | none =>
      have hred : accuracyScan h now threshold i0 (a0 :: rest) =
          accuracyScan h now threshold (i0 + 1) rest := by
        simp [accuracyScan, hts]
      rw [hred, ih (i0 + 1)]
      constructor
      · rintro ⟨d, a, hget, hk, hrest⟩
        exact ⟨d + 1, a, by simpa using hget, by omega, hrest⟩
      · rintro ⟨d, a, hget, hk, htsa, hgt⟩
        cases d with
        | zero =>
          rw [List.getElem?_cons_zero] at hget
          cases hget
          rw [hts] at htsa
          cases htsa
        | succ e =>
          refine ⟨e, a, ?_, by omega, htsa, hgt⟩
          simpa using hget
    | some t0 =>
      cases hgt0 : JsNum.jsGt (JsNum.jsSub (JsNum.fin now) t0) (JsNum.fin threshold) with
      | false =>
        have hred : accuracyScan h now threshold i0 (a0 :: rest) =
            accuracyScan h now threshold (i0 + 1) rest := by
          simp [accuracyScan, hts, hgt0]
        rw [hred, ih (i0 + 1)]
        constructor
        · rintro ⟨d, a, hget, hk, hrest⟩
          exact ⟨d + 1, a, by simpa using hget, by omega, hrest⟩
        · rintro ⟨d, a, hget, hk, htsa, hgt⟩
          cases d with
          | zero =>
            rw [List.getElem?_cons_zero] at hget
            cases hget
            rw [hts] at htsa
            cases htsa
            rw [hgt0] at hgt
            cases hgt
          | succ e =>
            refine ⟨e, a, ?_, by omega, htsa, hgt⟩
            simpa using hget
      | true =>
        have hred : accuracyScan h now threshold i0 (a0 :: rest) =
            ⟨i0, t0⟩ :: accuracyScan h now threshold (i0 + 1) rest := by
          simp [accuracyScan, hts, hgt0]
        rw [hred, List.mem_cons, ih (i0 + 1)]
        constructor
        · rintro (heq | ⟨d, a, hget, hk, hrest⟩)
          · cases heq
            exact ⟨0, a0, by simp, by omega, hts, hgt0⟩
          · exact ⟨d + 1, a, by simpa using hget, by omega, hrest⟩
        · rintro ⟨d, a, hget, hk, htsa, hgt⟩
          cases d with
          | zero =>
            rw [List.getElem?_cons_zero] at hget
            cases hget
            rw [hts] at htsa
            cases htsa
            left
            simp [hk]
          | succ e =>
            right
            refine ⟨e, a, ?_, by omega, htsa, hgt⟩
            simpa using hget

lemma uniquenessScan_mem (k : Nat) (t : String) :
    ∀ (ts : List String) (seen : List String) (i0 : Nat),
      ((⟨k, t⟩ : DuplicateArticle) ∈ uniquenessScan seen i0 ts ↔
        ∃ d, ts[d]? = some t ∧ k = i0 + d ∧
          (t ∈ seen ∨ ∃ e, e < d ∧ ts[e]? = some t)) := by
  intro ts
  induction ts with
  | nil => intro seen i0; simp [uniquenessScan]
  | cons t0 rest ih =>
    intro seen i0
    by_cases h0 : t0 ∈ seen
    · have hred : uniquenessScan seen i0 (t0 :: rest) =
          ⟨i0, t0⟩ :: uniquenessScan seen (i0 + 1) rest := by
        simp [uniquenessScan, h0]
      rw [hred, List.mem_cons, ih seen (i0 + 1)]
      constructor
      · rintro (heq | ⟨d, hget, hk, hcond⟩)
        · cases heq
          exact ⟨0, by simp, by omega, Or.inl h0⟩
        · refine ⟨d + 1, by simpa using hget, by omega, ?_⟩
          rcases hcond with hseen | ⟨e, he, hget2⟩
          · exact Or.inl hseen
          · exact Or.inr ⟨e + 1, by omega, by simpa using hget2⟩
      · rintro ⟨d, hget, hk, hcond⟩
        cases d with
        | zero =>
          rw [List.getElem?_cons_zero] at hget
          cases hget
          left
          simp [hk]
        | succ e =>
          right
          refine ⟨e, by simpa using hget, by omega, ?_⟩
          rcases hcond with hseen | ⟨f, hf, hget2⟩
          · exact Or.inl hseen
          · cases f with
            | zero =>
              rw [List.getElem?_cons_zero] at hget2
              cases hget2
              exact Or.inl h0
            | succ f1 =>
              exact Or.inr ⟨f1, by omega, by simpa using hget2⟩
    · have hred : uniquenessScan seen i0 (t0 :: rest) =
          uniquenessScan (t0 :: seen) (i0 + 1) rest := by
        simp [uniquenessScan, h0]
      rw [hred, ih (t0 :: seen) (i0 + 1)]
      constructor
      · rintro ⟨d, hget, hk, hcond⟩
        refine ⟨d + 1, by simpa using hget, by omega, ?_⟩
        rcases hcond with hseen | ⟨e, he, hget2⟩
        · rcases List.mem_cons.mp hseen with heq | hs
          · exact Or.inr ⟨0, by omega, by simp [heq]⟩
          · exact Or.inl hs
        · exact Or.inr ⟨e + 1, by omega, by simpa using hget2⟩
      · rintro ⟨d, hget, hk, hcond⟩
        cases d with
        | zero =>
          rw [List.getElem?_cons_zero] at hget
          cases hget
          rcases hcond with hseen | ⟨e, he, _⟩
          · exact absurd hseen h0
          · omega
        | succ e =>
          refine ⟨e, by simpa using hget, by omega, ?_⟩
          rcases hcond with hseen | ⟨f, hf, hget2⟩
          · exact Or.inl (List.mem_cons_of_mem t0 hseen)
          · cases f with
            | zero =>
              rw [List.getElem?_cons_zero] at hget2
              cases hget2
              exact Or.inl (List.mem_cons_self _ _)
            | succ f1 =>
              exact Or.inr ⟨f1, by omega, by simpa using hget2⟩

/-! ### Helper lemmas about the page-object sorting check -/

lemma hnValidateSorting_iff (articles : List ArticleData) :
    (hnValidateSorting articles = true ↔
      ∀ (i : Nat) (hi : i + 1 < articles.length),
        JsNum.jsLe (articles.get ⟨i + 1, hi⟩).timestamp
          (articles.get ⟨i, Nat.lt_of_succ_lt hi⟩).timestamp = true) := by
  unfold hnValidateSorting
  rw [List.all_eq_true, List.forall_mem_enum]
  constructor
  · intro hall i hi
    have hx := hall (i + 1) hi
    have h0 : ((i + 1 : Nat) == 0) = false := by simp
    rw [h0, Bool.false_or, show i + 1 - 1 = i from rfl,
      List.getD_eq_getElem articles _ (Nat.lt_of_succ_lt hi)] at hx
    simpa [List.get_eq_getElem] using hx
  · intro hp i hi
    cases i with
    | zero => simp
    | succ j =>
      have h0 : ((j + 1 : Nat) == 0) = false := by simp
      rw [h0, Bool.false_or, show j + 1 - 1 = j from rfl,
        List.getD_eq_getElem articles _ (Nat.lt_of_succ_lt hi)]
      simpa [List.get_eq_getElem] using hp j hi

lemma jsLe_fin_fin (a b : Int) :
    JsNum.jsLe (JsNum.fin a) (JsNum.fin b) = decide (a ≤ b) := rfl

lemma hnValidateSorting_fin (data : List ArticleData) (vs : List Int)
    (hdata : data.map ArticleData.timestamp = vs.map JsNum.fin) :
    (hnValidateSorting data = true ↔
      ∀ (i : Nat) (hi : i + 1 < vs.length),
        vs.get ⟨i + 1, hi⟩ ≤ vs.get ⟨i, Nat.lt_of_succ_lt hi⟩) := by
  have hlen : data.length = vs.length := by
    have := congrArg List.length hdata
    simpa using this
  have hts : ∀ (i : Nat) (hi : i < vs.length) (hd : i < data.length),
      (data.get ⟨i, hd⟩).timestamp = JsNum.fin (vs.get ⟨i, hi⟩) := by
    intro i hi hd
    have h1 : (data.map ArticleData.timestamp)[i]? = (vs.map JsNum.fin)[i]? := by
      rw [hdata]
    rw [List.getElem?_map, List.getElem?_map,
      List.getElem?_eq_getElem hd, List.getElem?_eq_getElem hi] at h1
    simpa [List.get_eq_getElem] using h1
  rw [hnValidateSorting_iff]
  constructor
  · intro hp i hi
    have hx := hp i (by omega)
    rw [hts (i + 1) hi (by omega), hts i (Nat.lt_of_succ_lt hi) (by omega),
      jsLe_fin_fin, decide_eq_true_eq] at hx
    exact hx
  · intro hp i hi
    rw [hts (i + 1) (by omega) hi, hts i (by omega) (Nat.lt_of_succ_lt hi),
      jsLe_fin_fin, decide_eq_true_eq]
    exact hp i (by omega)

lemma getArticleTimestamp_fin_or_nan (h : JsHost) (a : ArticleHandle)
    (t : JsNum) (ht : getArticleTimestamp h a = some t) :
    t = JsNum.nan ∨ ∃ tv, t = JsNum.fin tv := by
  obtain ⟨age, tt, th, au, sc⟩ := a
  cases age with
  | none => simp [getArticleTimestamp] at ht
  | some el =>
    obtain ⟨title⟩ := el
    cases title with
    | none => simp [getArticleTimestamp] at ht
    | some s =>
      by_cases hs : s = ""
      · simp [getArticleTimestamp, hs] at ht
      · cases hp : h.parseDate s with
        | none =>
          simp [getArticleTimestamp, hs, hp] at ht
          exact Or.inl ht.symm
        | some tv =>
          simp [getArticleTimestamp, hs, hp] at ht
          exact Or.inr ⟨tv, ht.symm⟩

/-! ### Claim theorems -/

/-- C1: for a 100-item input whose extracted timestamps are all known
instants `vs`, `validateSorting` returns a result whose `isValid` is `true`
iff every timestamp is `≤` its predecessor (ties allowed; the scan starts
from the `+Infinity` sentinel). -/
theorem claim1_sorting_monotonicity (h : JsHost) (articles : List ArticleHandle)
    (vs : List Int) (hlen : articles.length = 100)
    (hts : articles.map (getArticleTimestamp h) =
      vs.map (fun t => some (JsNum.fin t))) :
    ∃ r, validateSorting h articles = Except.ok r ∧
      (r.isValid = true ↔ ∀ (i : Nat) (hi : i + 1 < vs.length),
        vs.get ⟨i + 1, hi⟩ ≤ vs.get ⟨i, Nat.lt_of_succ_lt hi⟩) :=
  validateSorting_allKnown h articles vs hlen hts

/-- Witness for C1: 100 articles all parsing to the instant 0 (a constant,
hence non-increasing, sequence) validate as sorted. -/
theorem claim1_sorting_monotonicity_witness :
    ∃ r, validateSorting hostZero (List.replicate 100 agedArticle) =
      Except.ok r ∧ r.isValid = true := by
  have hlen : (List.replicate 100 agedArticle).length = 100 := by simp
  have hts : (List.replicate 100 agedArticle).map (getArticleTimestamp hostZero) =
      (List.replicate 100 (0 : Int)).map (fun t => some (JsNum.fin t)) := by
    simp [getArticleTimestamp, hostZero, agedArticle]
  obtain ⟨r, hr, hiff⟩ :=
    claim1_sorting_monotonicity hostZero (List.replicate 100 agedArticle)
      (List.replicate 100 (0 : Int)) hlen hts
  refine ⟨r, hr, hiff.mpr ?_⟩
  intro i hi
  simp only [List.get_eq_getElem, List.getElem_replicate]
  exact le_refl 0

/-- C2 counterexample: on 99 items the mismatch message is
`"Expected 100 articles, but found 99"`, which does not contain the
substring `"Expected 100, but found 99"` the claim requires. -/
theorem claim2_counterexample :
    ∃ r, validateSorting hostNone (List.replicate 99 blankArticle) =
      Except.ok r ∧ r.isValid = false ∧
      ¬ List.IsInfix ("Expected 100, but found 99".toList)
        (r.message.toList) := by
  refine ⟨⟨false, none, "Expected 100 articles, but found 99"⟩, ?_, rfl, ?_⟩
  · have h0 : (List.replicate 99 blankArticle).length ≠ 0 := by simp
    have h100 : (List.replicate 99 blankArticle).length ≠ 100 := by simp
    rw [validateSorting_mismatch hostNone _ h0 h100]
    rfl
  · decide

/-- C2 (amended): on a non-empty input of length `n ≠ 100`, `validateSorting`
returns `isValid = false` with the message
`"Expected 100 articles, but found n"` holding the exact expected and found
counts — a constant depending only on the length, so no item is scanned:
any two inputs of that length, under any hosts, give the same result. -/
theorem claim2_amended_short_circuit (h h2 : JsHost)
    (articles articles2 : List ArticleHandle) (n : Nat)
    (hlen : articles.length = n) (hlen2 : articles2.length = n)
    (h0 : n ≠ 0) (h100 : n ≠ 100) :
    (validateSorting h articles = Except.ok
        ⟨false, none, s!"Expected 100 articles, but found {n}"⟩ ∧
      validateSorting h articles = validateSorting h2 articles2) := by
  have e1 := validateSorting_mismatch h articles (by omega) (by omega)
  have e2 := validateSorting_mismatch h2 articles2 (by omega) (by omega)
  rw [hlen] at e1
  rw [hlen2] at e2
  exact ⟨e1, by rw [e1, e2]⟩

/-- Witness for C2 (amended) at 99 blank articles under `hostNone` and
`hostZero`. -/
theorem claim2_amended_short_circuit_witness :
    (validateSorting hostNone (List.replicate 99 blankArticle) = Except.ok
        ⟨false, none, "Expected 100 articles, but found 99"⟩ ∧
      validateSorting hostNone (List.replicate 99 blankArticle) =
        validateSorting hostZero (List.replicate 99 agedArticle)) := by
  have hmain := claim2_amended_short_circuit hostNone hostZero
    (List.replicate 99 blankArticle) (List.replicate 99 agedArticle) 99
    (by simp) (by simp) (by decide) (by decide)
  refine ⟨?_, hmain.2⟩
  rw [hmain.1]
  rfl

/-- C3 counterexample: an article whose `.age` element carries a non-empty
but unparseable time attribute makes `getArticleTimestamp` return `NaN`
(a present numeric non-value), not the unknown value `null`. -/
theorem claim3_counterexample :
    (getArticleTimestamp hostNone
        ⟨some ⟨some "not-a-date"⟩, none, none, none, none⟩ = some JsNum.nan ∧
      some JsNum.nan ≠ (none : Option JsNum)) :=
  ⟨rfl, by decide⟩

/-- C3 (amended): the extractor returns the unknown value `null` exactly
when the `.age` element is absent, its attribute is absent, or its attribute
is the empty string; a present, non-empty but unparseable attribute yields
`NaN` instead (still never an exception), and a parseable one its instant. -/
theorem claim3_amended_extractor (h : JsHost) (a : ArticleHandle) :
    ((a.age = none → getArticleTimestamp h a = none) ∧
      (∀ el, a.age = some el → el.title = none →
        getArticleTimestamp h a = none) ∧
      (∀ el, a.age = some el → el.title = some "" →
        getArticleTimestamp h a = none) ∧
      (∀ el s, a.age = some el → el.title = some s → s ≠ "" →
        h.parseDate s = none → getArticleTimestamp h a = some JsNum.nan) ∧
      (∀ el s t, a.age = some el → el.title = some s → s ≠ "" →
        h.parseDate s = some t →
        getArticleTimestamp h a = some (JsNum.fin t))) := by
  refine ⟨?_, ?_, ?_, ?_, ?_⟩
  · intro hage
    simp [getArticleTimestamp, hage]
  · intro el hage htitle
    simp [getArticleTimestamp, hage, htitle]
  · intro el hage htitle
    simp [getArticleTimestamp, hage, htitle]
  · intro el s hage htitle hs hp
    simp [getArticleTimestamp, hage, htitle, hs, hp]
  · intro el s t hage htitle hs hp
    simp [getArticleTimestamp, hage, htitle, hs, hp]

/-- Witness for C3 (amended): a missing `.age` element gives `null`; a
non-empty unparseable attribute gives `NaN`. -/
theorem claim3_amended_extractor_witness :
    (getArticleTimestamp hostNone blankArticle = none ∧
      getArticleTimestamp hostNone
        ⟨some ⟨some "nope"⟩, none, none, none, none⟩ = some JsNum.nan) :=
  ⟨(claim3_amended_extractor hostNone blankArticle).1 rfl,
    (claim3_amended_extractor hostNone
        ⟨some ⟨some "nope"⟩, none, none, none, none⟩).2.2.2.1
      ⟨some "nope"⟩ "nope" rfl rfl (by decide) rfl⟩

/-- C4: replacing one item's timestamp by the unknown value anywhere in an
otherwise non-increasing 100-item sequence still validates as sorted: the
unknown is neither compared nor does it update the previous-timestamp
baseline. -/
theorem claim4_unknown_skip (h : JsHost) (articles : List ArticleHandle)
    (vs : List Int) (l1 l2 : List (Option JsNum))
    (hlen : articles.length = 100)
    (hts : articles.map (getArticleTimestamp h) = l1 ++ none :: l2)
    (hknown : l1 ++ l2 = vs.map (fun t => some (JsNum.fin t)))
    (hsorted : ∀ (i : Nat) (hi : i + 1 < vs.length),
      vs.get ⟨i + 1, hi⟩ ≤ vs.get ⟨i, Nat.lt_of_succ_lt hi⟩) :
    ∃ r, validateSorting h articles = Except.ok r ∧ r.isValid = true := by
  refine ⟨_, validateSorting_eq_scan h articles hlen, ?_⟩
  rw [hts, sortScan_skip_none h l1 l2 JsNum.inf 0 0, hknown]
  exact (sortScan_inf_chain h vs 0).mpr ((chain'_iff_pairwise_le vs).mpr hsorted)

/-- Witness for C4: 99 articles at the constant instant 0 with one
timestamp-less article inserted at position 50 still validate as sorted. -/
theorem claim4_unknown_skip_witness :
    ∃ r, validateSorting hostZero
        (List.replicate 50 agedArticle ++
          blankArticle :: List.replicate 49 agedArticle) =
      Except.ok r ∧ r.isValid = true := by
  apply claim4_unknown_skip hostZero
    (List.replicate 50 agedArticle ++
      blankArticle :: List.replicate 49 agedArticle)
    (List.replicate 99 (0 : Int))
    (List.replicate 50 (some (JsNum.fin 0)))
    (List.replicate 49 (some (JsNum.fin 0)))
  · simp
  · simp [getArticleTimestamp, hostZero, agedArticle, blankArticle]
  · rw [List.map_replicate, ← List.replicate_add]
  · intro i hi
    simp only [List.get_eq_getElem, List.getElem_replicate]
    exact le_refl 0

/-- C5: on any non-empty input, `performFullValidation` returns all four
validators' outputs unchanged, and `isFullyValid` is the conjunction of the
sorting verdict, every per-item content verdict, the freshness verdict and
the uniqueness verdict. -/
theorem claim5_full_validation (h : JsHost) (now threshold : Int)
    (articles : List ArticleHandle) (hne : articles ≠ []) :
    ∃ s res, validateSorting h articles = Except.ok s ∧
      performFullValidation h now threshold articles = Except.ok res ∧
      res.sorting = s ∧
      res.content = articles.map validateArticleContent ∧
      res.timestampAccuracy = validateTimestampAccuracy h now threshold articles ∧
      res.uniqueness = validateUniqueness articles ∧
      res.isFullyValid = (s.isValid &&
        (articles.map validateArticleContent).all (fun r => r.isValid) &&
        (validateTimestampAccuracy h now threshold articles).isAccurate &&
        (validateUniqueness articles).isUnique) := by
  obtain ⟨s, hs⟩ := validateSorting_ok_of_ne h articles hne
  refine ⟨s, ⟨s, articles.map validateArticleContent,
    validateTimestampAccuracy h now threshold articles,
    validateUniqueness articles,
    s.isValid && (articles.map validateArticleContent).all (fun r => r.isValid) &&
      (validateTimestampAccuracy h now threshold articles).isAccurate &&
      (validateUniqueness articles).isUnique⟩,
    hs, ?_, rfl, rfl, rfl, rfl, rfl⟩
  unfold performFullValidation
  rw [hs]

/-- Witness for C5 on the one-article collection `[agedArticle]`. -/
theorem claim5_full_validation_witness :
    ∃ s res, validateSorting hostZero [agedArticle] = Except.ok s ∧
      performFullValidation hostZero 0 300000 [agedArticle] = Except.ok res ∧
      res.sorting = s ∧
      res.content = [agedArticle].map validateArticleContent ∧
      res.timestampAccuracy = validateTimestampAccuracy hostZero 0 300000 [agedArticle] ∧
      res.uniqueness = validateUniqueness [agedArticle] ∧
      res.isFullyValid = (s.isValid &&
        ([agedArticle].map validateArticleContent).all (fun r => r.isValid) &&
        (validateTimestampAccuracy hostZero 0 300000 [agedArticle]).isAccurate &&
        (validateUniqueness [agedArticle]).isUnique) :=
  claim5_full_validation hostZero 0 300000 [agedArticle] (by simp)

/-- C6: `validateUniqueness` flags exactly the indices whose extracted title
already occurred at a smaller index (the first occurrence is never flagged),
`isUnique` holds iff no duplicate was recorded, and titles `[A, B, A]`
produce exactly `[{index := 2, title := A}]`. -/
theorem claim6_uniqueness (articles : List ArticleHandle) :
    ((∀ (k : Nat) (t : String),
        ((⟨k, t⟩ : DuplicateArticle) ∈ (validateUniqueness articles).duplicates ↔
          ((articles.map articleTitle)[k]? = some t ∧
            ∃ j, j < k ∧ (articles.map articleTitle)[j]? = some t))) ∧
      ((validateUniqueness articles).isUnique = true ↔
        (validateUniqueness articles).duplicates = []) ∧
      validateUniqueness
          [titledArticle "A", titledArticle "B", titledArticle "A"] =
        ⟨false, [⟨2, "A"⟩]⟩) := by
  refine ⟨?_, ?_, ?_⟩
  · intro k t
    unfold validateUniqueness
    rw [uniquenessScan_mem k t (articles.map articleTitle) [] 0]
    constructor
    · rintro ⟨d, hget, hk, hcond⟩
      have hkd : k = d := by omega
      subst hkd
      rcases hcond with hseen | ⟨e, he, hget2⟩
      · exact absurd hseen (List.not_mem_nil t)
      · exact ⟨hget, e, he, hget2⟩
    · rintro ⟨hget, j, hj, hget2⟩
      exact ⟨k, hget, by omega, Or.inr ⟨j, hj, hget2⟩⟩
  · unfold validateUniqueness
    simp [List.length_eq_zero]
  · rfl

/-- C7: `validateTimestampAccuracy` records exactly the indices whose
timestamp is a known instant older than the single reference time `now` by
strictly more than the threshold (unknown and `NaN` timestamps are skipped),
`isAccurate` holds iff nothing was recorded; at the default 5-minute
threshold an article exactly at the threshold is not flagged and one at
threshold plus 1 ms is. -/
theorem claim7_freshness (h : JsHost) (now threshold : Int)
    (articles : List ArticleHandle) :
    ((∀ (k : Nat) (t : JsNum),
        ((⟨k, t⟩ : InaccurateArticle) ∈
            (validateTimestampAccuracy h now threshold articles).inaccurateArticles ↔
          ∃ a tv, articles[k]? = some a ∧
            getArticleTimestamp h a = some (JsNum.fin tv) ∧ t = JsNum.fin tv ∧
            now - tv > threshold)) ∧
      ((validateTimestampAccuracy h now threshold articles).isAccurate = true ↔
        (validateTimestampAccuracy h now threshold articles).inaccurateArticles = []) ∧
      validateTimestampAccuracy hostZero (timeThresholdOfMinutes 5)
        (timeThresholdOfMinutes 5) [agedArticle] = ⟨true, []⟩ ∧
      validateTimestampAccuracy hostZero (timeThresholdOfMinutes 5 + 1)
        (timeThresholdOfMinutes 5) [agedArticle] =
        ⟨false, [⟨0, JsNum.fin 0⟩]⟩) := by
  refine ⟨?_, ?_, ?_, ?_⟩
  · intro k t
    unfold validateTimestampAccuracy
    rw [accuracyScan_mem h now threshold k t articles 0]
    constructor
    · rintro ⟨d, a, hget, hk, hts, hgt⟩
      have hkd : k = d := by omega
      subst hkd
      rcases getArticleTimestamp_fin_or_nan h a t hts with hnan | ⟨tv, hfin⟩
      · subst hnan
        simp [JsNum.jsSub, JsNum.jsGt] at hgt
      · subst hfin
        refine ⟨a, tv, hget, hts, rfl, ?_⟩
        simpa [JsNum.jsSub, JsNum.jsGt] using hgt
    · rintro ⟨a, tv, hget, hts, ht, hgt⟩
      subst ht
      exact ⟨k, a, hget, by omega, hts,
        by simpa [JsNum.jsSub, JsNum.jsGt] using hgt⟩
  · unfold validateTimestampAccuracy
    simp [List.length_eq_zero]
  · rfl
  · rfl

/-- C8: per-item content validation keeps the extracted details and accepts
exactly when title, url and author are non-empty and the score is not `NaN`;
an empty title with the other fields present is rejected, and a score of 0
with non-empty fields is accepted. -/
theorem claim8_content_validity :
    ((∀ article : ArticleHandle,
        (((validateArticleContent article).isValid = true ↔
          ((extractArticleDetails article).title ≠ "" ∧
            (extractArticleDetails article).url ≠ "" ∧
            (extractArticleDetails article).author ≠ "" ∧
            (extractArticleDetails article).score.isNaN = false)) ∧
          (validateArticleContent article).details = extractArticleDetails article)) ∧
      validateArticleContent ⟨none, some "", some "x", some "y", some "1"⟩ =
        ⟨false, ⟨"", "x", "y", JsNum.fin 1⟩⟩ ∧
      validateArticleContent ⟨none, some "t", some "u", some "a", some "0"⟩ =
        ⟨true, ⟨"t", "u", "a", JsNum.fin 0⟩⟩) := by
  refine ⟨?_, rfl, rfl⟩
  intro article
  refine ⟨?_, rfl⟩
  unfold validateArticleContent isValidArticleContent
  simp [Bool.and_eq_true, bne_iff_ne, Bool.not_eq_true', and_assoc]

/-- C9: `validateSorting` rejects with an error exactly on the empty input;
every non-empty input produces an ordinary `SortingResult` (in particular a
count mismatch is a result, not an error). -/
theorem claim9_invalid_input (h : JsHost) (articles : List ArticleHandle) :
    (((∃ e, validateSorting h articles = Except.error e) ↔ articles = []) ∧
      (articles ≠ [] → ∃ r, validateSorting h articles = Except.ok r)) := by
  constructor
  · constructor
    · rintro ⟨e, he⟩
      by_contra hne
      obtain ⟨r, hr⟩ := validateSorting_ok_of_ne h articles hne
      rw [hr] at he
      cases he
    · rintro rfl
      exact ⟨"Invalid input: articles must be a non-empty array", rfl⟩
  · exact validateSorting_ok_of_ne h articles

/-- Witness for C9: the empty input errors; a singleton input succeeds. -/
theorem claim9_invalid_input_witness :
    ((∃ e, validateSorting hostNone [] = Except.error e) ∧
      ∃ r, validateSorting hostNone [blankArticle] = Except.ok r) :=
  ⟨((claim9_invalid_input hostNone []).1).mpr rfl,
    (claim9_invalid_input hostNone [blankArticle]).2 (by simp)⟩

/-- C10: on 100-item inputs whose timestamps are all known, the stateful
sentinel scan of `ArticleValidator.validateSorting` agrees with the
adjacent-pair check of `HackerNewsPage.validateSorting` run on the same
timestamp sequence. -/
theorem claim10_refinement (h : JsHost) (articles : List ArticleHandle)
    (data : List ArticleData) (vs : List Int)
    (hlen : articles.length = 100)
    (hts : articles.map (getArticleTimestamp h) =
      vs.map (fun t => some (JsNum.fin t)))
    (hdata : data.map ArticleData.timestamp = vs.map JsNum.fin) :
    ∃ r, validateSorting h articles = Except.ok r ∧
      (r.isValid = true ↔ hnValidateSorting data = true) := by
  obtain ⟨r, hr, hiff⟩ := validateSorting_allKnown h articles vs hlen hts
  exact ⟨r, hr, hiff.trans (hnValidateSorting_fin data vs hdata).symm⟩

/-- Witness for C10 on the constant timestamp sequence of length 100. -/
theorem claim10_refinement_witness :
    ∃ r, validateSorting hostZero (List.replicate 100 agedArticle) =
      Except.ok r ∧
      (r.isValid = true ↔
        hnValidateSorting (List.replicate 100 ⟨"", JsNum.fin 0⟩) = true) := by
  apply claim10_refinement hostZero (List.replicate 100 agedArticle)
    (List.replicate 100 ⟨"", JsNum.fin 0⟩) (List.replicate 100 (0 : Int))
  · simp
  · simp [getArticleTimestamp, hostZero, agedArticle]
  · simp

end QAWolf
